import Mathlib

/-!
# Verification of the MemoryPal sequence-recall game engine

A shallow embedding of the game-state logic of
`src/scripts/games/sequence.js` (class `SequenceGame`).  DOM rendering,
audio and storage calls are external collaborators with no effect on the
game state and are omitted.  The nondeterminism of `Math.random()` is made
explicit: every call to `Math.random()` consumes one value from a supplied
list of draws, each draw being a rational number `num / den` in the unit
interval; `Math.floor(r * n)` is then Nat floor-division `num * n / den`.
The `setTimeout` choreography is modelled by counters of pending scheduled
callbacks in the state plus explicit timer-firing events, because the
source never cancels a scheduled timeout.
-/

namespace MemoryPal

/-- The four color buttons (`this.colors`, sequence.js line 14). -/
def colors : List String := ["red", "blue", "green", "yellow"]

/-- One output of a `Math.random()` call, the rational `num / den`.
Real draws satisfy `0 <= num / den < 1`; nothing below assumes it unless
stated. -/
structure RandDraw where
  num : Nat
  den : Nat
deriving Repr, DecidableEq

/-- `Math.floor(r * n)` for a unit-interval draw `r = num / den`:
floor of `(num / den) * n` is `num * n / den` in Nat floor-division. -/
def randIndex (r : RandDraw) (n : Nat) : Nat := r.num * n / r.den

/-- `this.colors[Math.floor(Math.random() * this.colors.length)]`.
An out-of-range index yields JS `undefined`, modelled by the sentinel
string "undefined" (distinct from every color). -/
def pickColor (r : RandDraw) : String := colors.getD (randIndex r colors.length) "undefined"

/-- The game-state fields of `SequenceGame` (sequence.js lines 4-16)
that the game logic reads or writes, plus three counters of pending
`setTimeout` callbacks (game-over at 1500ms, next-level at 2000ms, and the
in-flight async presentation loop of `showSequence`), since the source
never cancels a scheduled timeout. -/
structure Game where
  sequence : List String
  playerSequence : List String
  level : Nat
  score : Nat
  isPlaying : Bool
  isShowingSequence : Bool
  isPlayerTurn : Bool
  isPaused : Bool
  difficulty : String
  pendingShow : Nat
  pendingEnd : Nat
  pendingNext : Nat
deriving Repr, DecidableEq

/-- The constructor state (sequence.js lines 4-16), with the difficulty
setting as a parameter (it is loaded from preferences). -/
def initGame (d : String) : Game :=
  { sequence := [], playerSequence := [], level := 1, score := 0,
    isPlaying := false, isShowingSequence := false, isPlayerTurn := false,
    isPaused := false, difficulty := d,
    pendingShow := 0, pendingEnd := 0, pendingNext := 0 }

/-- `resetGame` (sequence.js lines 203-216): clears all game fields.  The
pending-timeout counters are deliberately NOT cleared: the source never
cancels a scheduled `setTimeout`. -/
def resetGame (g : Game) : Game :=
  { g with sequence := [], playerSequence := [], level := 1, score := 0,
           isPlaying := false, isShowingSequence := false,
           isPlayerTurn := false, isPaused := false }

/-- The `easy` branch of `addToSequence` (sequence.js lines 229-238): a
do-while loop redrawing until the drawn color differs from the last
sequence element (any draw accepted when the sequence is empty).  `none`
models exhausting the supplied draws without an accepted one. -/
def easyPick (lastColor : Option String) : List RandDraw → Option (String × List RandDraw)
  | [] => none
  | r :: rs =>
    let newColor := pickColor r
    if lastColor = some newColor then easyPick lastColor rs
    else some (newColor, rs)

/-- The `medium`/`hard`/default branches of `addToSequence` (sequence.js
lines 240-256): a single uniform draw over the 4 colors, repeats allowed. -/
def uniformPick : List RandDraw → Option (String × List RandDraw)
  | [] => none
  | r :: rs => some (pickColor r, rs)

/-- `getRecentErrorRate` (sequence.js lines 285-288): a placeholder that
always returns the constant 0.3. -/
def getRecentErrorRate : ℚ := 3 / 10

/-- `getAdaptiveColor` (sequence.js lines 262-283).  Each branch performs
exactly one `Math.random()` call, so one draw is consumed. -/
def getAdaptiveColor (g : Game) : List RandDraw → Option (String × List RandDraw)
  | [] => none
  | r :: rs =>
    let recentErrors := getRecentErrorRate
    if recentErrors > 1 / 2 then
      let availableColors := colors.filter fun c =>
        g.sequence.length == 0 || !(some c == g.sequence.getLast?)
      some (availableColors.getD (randIndex r availableColors.length) "undefined", rs)
    else if recentErrors < 1 / 5 then
      some (pickColor r, rs)
    else
      some (pickColor r, rs)

/-- The `switch (this.difficulty)` of `addToSequence` (sequence.js lines
228-257), factored out as the choice of the new color. -/
def chooseColor (g : Game) (draws : List RandDraw) : Option (String × List RandDraw) :=
  if g.difficulty = "easy" then easyPick g.sequence.getLast? draws
  else if g.difficulty = "medium" then uniformPick draws
  else if g.difficulty = "hard" then uniformPick draws
  else if g.difficulty = "adaptive" then getAdaptiveColor g draws
  else uniformPick draws

/-- `addToSequence` (sequence.js lines 224-260): chooses a new color by
difficulty and pushes it onto `sequence`. -/
def addToSequence (g : Game) (draws : List RandDraw) : Option (Game × List RandDraw) :=
  (chooseColor g draws).map fun p => ({ g with sequence := g.sequence ++ [p.1] }, p.2)

/-- The synchronous head of the async `showSequence` (sequence.js lines
290-293): flags are set before the presentation loop; one pending
presentation loop is now in flight. -/
def showSequenceStart (g : Game) : Game :=
  { g with isShowingSequence := true, isPlayerTurn := false,
           pendingShow := g.pendingShow + 1 }

/-- `startPlayerTurn` (sequence.js lines 357-359). -/
def startPlayerTurn (g : Game) : Game :=
  { g with isShowingSequence := false, isPlayerTurn := true }

/-- `nextLevel` (sequence.js lines 218-222): clears `playerSequence`,
appends one new color, and starts the presentation. -/
def nextLevel (g : Game) (draws : List RandDraw) : Option (Game × List RandDraw) :=
  (addToSequence { g with playerSequence := [] } draws).map fun p =>
    (showSequenceStart p.1, p.2)

/-- `startGame` (sequence.js lines 173-201): full reset, then
`isPlaying = true`, then `nextLevel()`. -/
def startGame (g : Game) (draws : List RandDraw) : Option (Game × List RandDraw) :=
  nextLevel { resetGame g with isPlaying := true } draws

/-- `handleCorrectColor` (sequence.js lines 418-436): adds `10 * level`. -/
def handleCorrectColor (g : Game) : Game :=
  { g with score := g.score + 10 * g.level }

/-- `handleSequenceComplete` (sequence.js lines 474-510): leaves the
player turn, adds the `level * 50` bonus, and schedules the 2000ms
level-advance timeout. -/
def handleSequenceComplete (g : Game) : Game :=
  { g with isPlayerTurn := false, score := g.score + g.level * 50,
           pendingNext := g.pendingNext + 1 }

/-- `handleIncorrectColor` (sequence.js lines 438-472): only DOM/audio
feedback plus `setTimeout(() => this.endGame(), 1500)`.  Note that it does
NOT clear `isPlayerTurn` and does not disable input. -/
def handleIncorrectColor (g : Game) : Game :=
  { g with pendingEnd := g.pendingEnd + 1 }

/-- `handleColorClick` (sequence.js lines 383-416), the `submitColor`
command: ignored unless in the player turn and unpaused; otherwise the
color is pushed onto `playerSequence` and compared against
`sequence[playerSequence.length - 1]` (JS indexing out of range gives
`undefined`, which never equals a string, modelled by `Option`). -/
def handleColorClick (c : String) (g : Game) : Game :=
  if !g.isPlayerTurn || g.isPaused then g
  else
    let g1 := { g with playerSequence := g.playerSequence ++ [c] }
    let currentIndex := g1.playerSequence.length - 1
    if g1.sequence.get? currentIndex = some c then
      let g2 := handleCorrectColor g1
      if g2.playerSequence.length = g2.sequence.length then
        handleSequenceComplete g2
      else g2
    else
      handleIncorrectColor g1

/-- `endGame` (sequence.js lines 512-543): clears the two lifecycle flags;
everything else is feedback/recording with no game-state effect. -/
def endGame (g : Game) : Game :=
  { g with isPlaying := false, isPlayerTurn := false }

/-- `replaySequence` (sequence.js lines 556-566). -/
def replaySequence (g : Game) : Game :=
  if !g.isPlaying || g.isShowingSequence || g.sequence.length == 0 then g
  else showSequenceStart { g with playerSequence := [] }

/-- `togglePause` (sequence.js lines 568-598). -/
def togglePause (g : Game) : Game :=
  if !g.isPlaying then g
  else { g with isPaused := !g.isPaused }

/-- The result of `getCurrentStats` (sequence.js lines 680-687). -/
structure Stats where
  level : Nat
  score : Nat
  sequence : List String
  isPlaying : Bool
deriving Repr, DecidableEq

/-- `getCurrentStats` (sequence.js lines 680-687); `slice()` is a copy,
which is the identity in the pure model. -/
def getCurrentStats (g : Game) : Stats :=
  { level := g.level, score := g.score, sequence := g.sequence,
    isPlaying := g.isPlaying }

/-- The external events driving the engine: the command surface plus the
firing of the scheduled callbacks. -/
inductive Ev where
  | start
  | submit (c : String)
  | replay
  | togglePause
  | presentDone
  | endGameFire
  | nextLevelFire
deriving Repr, DecidableEq

/-- One event step.  Timer-firing events are valid only when a matching
callback is pending (`none` otherwise); a fired callback runs the same
code the source schedules: the tail of `showSequence` (lines 352-354)
checks `isPlaying && !isPaused` at fire time, the 1500ms callback runs
`endGame` unconditionally, and the 2000ms callback (lines 505-509) runs
`level++` then `nextLevel()`. -/
def step (g : Game) (draws : List RandDraw) : Ev → Option (Game × List RandDraw)
  | Ev.start => startGame g draws
  | Ev.submit c => some (handleColorClick c g, draws)
  | Ev.replay => some (replaySequence g, draws)
  | Ev.togglePause => some (togglePause g, draws)
  | Ev.presentDone =>
    if g.pendingShow = 0 then none
    else
      let g1 := { g with pendingShow := g.pendingShow - 1 }
      some (if g1.isPlaying && !g1.isPaused then startPlayerTurn g1 else g1, draws)
  | Ev.endGameFire =>
    if g.pendingEnd = 0 then none
    else some (endGame { g with pendingEnd := g.pendingEnd - 1 }, draws)
  | Ev.nextLevelFire =>
    if g.pendingNext = 0 then none
    else nextLevel { g with pendingNext := g.pendingNext - 1, level := g.level + 1 } draws

/-- Run a list of events from a state, threading the random draws. -/
def run (g : Game) (draws : List RandDraw) : List Ev → Option (Game × List RandDraw)
  | [] => some (g, draws)
  | e :: es =>
    match step g draws e with
    | none => none
    | some p => run p.1 p.2 es

/-- A generic mid-player-turn state used for concrete instantiations. -/
def turnState (seq ps : List String) (lvl sc : Nat) : Game :=
  { sequence := seq, playerSequence := ps, level := lvl, score := sc,
    isPlaying := true, isShowingSequence := false, isPlayerTurn := true,
    isPaused := false, difficulty := "medium",
    pendingShow := 0, pendingEnd := 0, pendingNext := 0 }

/-- The state right after a restart with the draw 0 (color red): one
presented color, everything else reset. -/
def g5res : Game :=
  { sequence := ["red"], playerSequence := [], level := 1, score := 0,
    isPlaying := true, isShowingSequence := true, isPlayerTurn := false,
    isPaused := false, difficulty := "medium",
    pendingShow := 1, pendingEnd := 0, pendingNext := 0 }

example : pickColor ⟨0, 1⟩ = "red" := by decide
example : pickColor ⟨1, 4⟩ = "blue" := by decide
example : (run (initGame "medium") [⟨0, 1⟩] [Ev.start, Ev.presentDone]).map
    (fun p => p.1.sequence) = some ["red"] := by decide

/-- An element produced by a successful list lookup is a member. -/
theorem mem_of_get_eq_some {l : List String} {n : Nat} {a : String}
    (h : l.get? n = some a) : a ∈ l := by
  induction l generalizing n with
  | nil => simp [List.get?] at h
  | cons x xs ih =>
    cases n with
    | zero =>
      simp [List.get?] at h
      simp [h]
    | succ m =>
      simp only [List.get?] at h
      exact List.mem_cons_of_mem _ (ih h)

/-- C10: `endGame` changes only the lifecycle flags `isPlaying` and
`isPlayerTurn`; score, level, sequence and playerSequence are untouched,
so `getCurrentStats` after game over still reports the final score, level
and full sequence of the ended game. -/
theorem claim10_endGame_frame (g : Game) :
    (endGame g).isPlaying = false ∧ (endGame g).isPlayerTurn = false ∧
    (endGame g).score = g.score ∧ (endGame g).level = g.level ∧
    (endGame g).sequence = g.sequence ∧
    (endGame g).playerSequence = g.playerSequence ∧
    (endGame g).isShowingSequence = g.isShowingSequence ∧
    (endGame g).isPaused = g.isPaused ∧
    (endGame g).difficulty = g.difficulty ∧
    getCurrentStats (endGame g) = ⟨g.level, g.score, g.sequence, false⟩ :=
  ⟨rfl, rfl, rfl, rfl, rfl, rfl, rfl, rfl, rfl, rfl⟩

/-- C8: `submitColor` is a no-op whenever the engine is not in the player
turn or is paused, for every submitted color. -/
theorem claim8_submit_noop (g : Game) (c : String)
    (h : g.isPlayerTurn = false ∨ g.isPaused = true) :
    handleColorClick c g = g := by
  unfold handleColorClick
  rcases h with h | h <;> simp [h]

/-- Witness for C8: a click while the game is idle changes nothing. -/
theorem claim8_submit_noop_witness :
    handleColorClick "red" (initGame "medium") = initGame "medium" :=
  claim8_submit_noop (initGame "medium") "red" (Or.inl rfl)

/-- C9: `replay` is a no-op when the engine is not playing or is showing
the sequence; when it acts (playing, not showing, nonempty sequence) it
clears `playerSequence` and re-enters the presentation of the current
sequence, leaving `sequence`, `level` and `score` unchanged. -/
theorem claim9_replay (g : Game) :
    (¬(g.isPlaying = true ∧ g.isShowingSequence = false) → replaySequence g = g) ∧
    (g.isPlaying = true → g.isShowingSequence = false → g.sequence ≠ [] →
      replaySequence g =
        { g with playerSequence := [], isShowingSequence := true,
                 isPlayerTurn := false, pendingShow := g.pendingShow + 1 }) := by
  constructor
  · intro h
    cases hp : g.isPlaying with
    | false => simp [replaySequence, hp]
    | true =>
      cases hs : g.isShowingSequence with
      | true => simp [replaySequence, hs]
      | false => exact absurd ⟨hp, hs⟩ h
  · intro hp hs hseq
    have hlen : g.sequence.length ≠ 0 := by
      simpa [List.length_eq_zero] using hseq
    simp [replaySequence, hp, hs, hlen, showSequenceStart]

/-- Witness for C9: a no-op on the idle constructor state, and the action
on a mid-player-turn state with sequence [red, blue] and playerSequence
[red]. -/
theorem claim9_replay_witness :
    replaySequence (initGame "medium") = initGame "medium" ∧
    replaySequence (turnState ["red", "blue"] ["red"] 2 30) =
      { turnState ["red", "blue"] ["red"] 2 30 with
          playerSequence := [], isShowingSequence := true,
          isPlayerTurn := false, pendingShow := 1 } :=
  ⟨(claim9_replay (initGame "medium")).1 (by simp [initGame]),
   (claim9_replay (turnState ["red", "blue"] ["red"] 2 30)).2 rfl rfl (by decide)⟩

/-- C7: because `getRecentErrorRate` is the constant 0.3, next-color
selection under the adaptive difficulty coincides with selection under
medium difficulty, for every sequence state and every draw supply; hence
the produced sequences also coincide. -/
theorem claim7_adaptive_eq_medium (g : Game) (draws : List RandDraw) :
    chooseColor { g with difficulty := "adaptive" } draws =
      chooseColor { g with difficulty := "medium" } draws ∧
    (addToSequence { g with difficulty := "adaptive" } draws).map
        (fun p => (p.1.sequence, p.2)) =
      (addToSequence { g with difficulty := "medium" } draws).map
        (fun p => (p.1.sequence, p.2)) := by
  have hna : ¬ (getRecentErrorRate > 1 / 2) := by norm_num [getRecentErrorRate]
  have hnb : ¬ (getRecentErrorRate < 1 / 5) := by norm_num [getRecentErrorRate]
  have hch : chooseColor { g with difficulty := "adaptive" } draws =
      chooseColor { g with difficulty := "medium" } draws := by
    cases draws with
    | nil => simp [chooseColor, getAdaptiveColor, uniformPick]
    | cons r rs =>
      norm_num [chooseColor, getAdaptiveColor, uniformPick, getRecentErrorRate]
      rw [if_neg (by decide : ¬ ("adaptive" : String) = "easy"),
          if_neg (by decide : ¬ ("medium" : String) = "easy")]
  refine ⟨hch, ?_⟩
  unfold addToSequence
  rw [hch]
  cases chooseColor { g with difficulty := "medium" } draws with
  | none => simp
  | some p => simp

/-- C3 counterexample: submitting the unknown color "purple" during the
player turn is NOT free of state change — it is pushed onto
`playerSequence` and schedules the game-over timeout, refuting the claim
that an invalid color produces no change to the game state. -/
theorem claim3_counterexample :
    handleColorClick "purple" (turnState ["red"] [] 1 0) ≠
      turnState ["red"] [] 1 0 := by decide

/-- C3 amended: a submitted color outside the four game colors never
matches the expected color, so it is handled through the ordinary
mismatch path: it is appended to `playerSequence` and the 1500ms game-over
timeout is scheduled; no score change, no flag change, and no failure is
surfaced beyond the normal wrong-answer handling. -/
theorem claim3_invalid_color_mismatch (g : Game) (c : String)
    (ht : g.isPlayerTurn = true) (hp : g.isPaused = false)
    (hseq : ∀ x ∈ g.sequence, x ∈ colors) (hc : c ∉ colors) :
    handleColorClick c g =
      { g with playerSequence := g.playerSequence ++ [c],
               pendingEnd := g.pendingEnd + 1 } := by
  have hne : ¬ (g.sequence.get? ((g.playerSequence ++ [c]).length - 1) = some c) := by
    intro hEq
    exact hc (hseq c (mem_of_get_eq_some hEq))
  unfold handleColorClick
  simp only [ht, hp, Bool.not_true, Bool.false_or, Bool.false_eq_true, if_false]
  rw [if_neg hne]
  rfl

/-- Witness for C3's amended statement at a concrete state. -/
theorem claim3_invalid_color_mismatch_witness :
    handleColorClick "purple" (turnState ["red"] [] 1 0) =
      { turnState ["red"] [] 1 0 with
          playerSequence := ["purple"], pendingEnd := 1 } :=
  claim3_invalid_color_mismatch (turnState ["red"] [] 1 0) "purple"
    rfl rfl (by decide) (by decide)

/-- C5: from every prior state, a successful `startGame` yields a state
with exactly one color in the sequence, an empty player sequence, level 1,
score 0, and the engine playing and presenting. -/
theorem claim5_start_resets (g g2 : Game) (draws rest : List RandDraw)
    (h : startGame g draws = some (g2, rest)) :
    g2.sequence.length = 1 ∧ g2.playerSequence = [] ∧ g2.level = 1 ∧
    g2.score = 0 ∧ g2.isPlaying = true ∧ g2.isShowingSequence = true ∧
    g2.isPlayerTurn = false ∧ g2.isPaused = false := by
  unfold startGame nextLevel addToSequence at h
  cases hc : chooseColor
      { resetGame g with isPlaying := true, playerSequence := [] } draws with
  | none => rw [hc] at h; simp at h
  | some p =>
    rw [hc] at h
    simp only [Option.map_some', Option.some.injEq, Prod.mk.injEq] at h
    obtain ⟨hg, -⟩ := h
    rw [← hg]
    simp [showSequenceStart, resetGame]

/-- Witness for C5: restarting from a mid-game level-2 state. -/
theorem claim5_start_resets_witness :
    g5res.sequence.length = 1 ∧ g5res.playerSequence = [] ∧ g5res.level = 1 ∧
    g5res.score = 0 ∧ g5res.isPlaying = true ∧ g5res.isShowingSequence = true ∧
    g5res.isPlayerTurn = false ∧ g5res.isPaused = false :=
  claim5_start_resets (turnState ["red", "blue"] ["red"] 2 70) g5res
    [⟨0, 1⟩] [] (by decide)

/-- C4: each correct non-final submission adds exactly `10 * level`; the
final correct submission of a level additionally adds the `level * 50`
completion bonus; concretely an all-correct level-1 play reaches score 60
and an all-correct play through level 2 reaches cumulative score 200. -/
theorem claim4_scoring :
    (∀ g c, g.isPlayerTurn = true → g.isPaused = false →
      g.sequence.get? g.playerSequence.length = some c →
      g.playerSequence.length + 1 ≠ g.sequence.length →
      handleColorClick c g =
        { g with playerSequence := g.playerSequence ++ [c],
                 score := g.score + 10 * g.level }) ∧
    (∀ g c, g.isPlayerTurn = true → g.isPaused = false →
      g.sequence.get? g.playerSequence.length = some c →
      g.playerSequence.length + 1 = g.sequence.length →
      handleColorClick c g =
        { g with playerSequence := g.playerSequence ++ [c],
                 score := g.score + 10 * g.level + g.level * 50,
                 isPlayerTurn := false, pendingNext := g.pendingNext + 1 }) ∧
    (run (initGame "medium") [⟨0, 1⟩]
        [Ev.start, Ev.presentDone, Ev.submit "red"]).map
      (fun p => p.1.score) = some 60 ∧
    (run (initGame "medium") [⟨0, 1⟩, ⟨0, 1⟩]
        [Ev.start, Ev.presentDone, Ev.submit "red", Ev.nextLevelFire,
         Ev.presentDone, Ev.submit "red", Ev.submit "red"]).map
      (fun p => p.1.score) = some 200 := by
  refine ⟨?_, ?_, by decide, by decide⟩
  · intro g c ht hp hexp hlen
    unfold handleColorClick
    simp only [ht, hp, Bool.not_true, Bool.false_or, Bool.false_eq_true, if_false,
               List.length_append, List.length_singleton, Nat.add_sub_cancel]
    rw [if_pos hexp]
    simp only [handleCorrectColor, List.length_append, List.length_singleton]
    rw [if_neg hlen]
  · intro g c ht hp hexp hlen
    unfold handleColorClick
    simp only [ht, hp, Bool.not_true, Bool.false_or, Bool.false_eq_true, if_false,
               List.length_append, List.length_singleton, Nat.add_sub_cancel]
    rw [if_pos hexp]
    simp only [handleCorrectColor, List.length_append, List.length_singleton]
    rw [if_pos hlen]
    rfl

/-- Witness for C4: a non-final correct step at level 1 adds 10, and the
final correct step at level 1 with one prior correct step adds 10 + 50. -/
theorem claim4_scoring_witness :
    handleColorClick "red" (turnState ["red", "blue"] [] 1 0) =
      { turnState ["red", "blue"] [] 1 0 with
          playerSequence := ["red"], score := 10 } ∧
    handleColorClick "blue" (turnState ["red", "blue"] ["red"] 1 10) =
      { turnState ["red", "blue"] ["red"] 1 10 with
          playerSequence := ["red", "blue"], score := 70,
          isPlayerTurn := false, pendingNext := 1 } :=
  ⟨claim4_scoring.1 (turnState ["red", "blue"] [] 1 0) "red"
      rfl rfl (by decide) (by decide),
   claim4_scoring.2.1 (turnState ["red", "blue"] ["red"] 1 10) "blue"
      rfl rfl (by decide) (by decide)⟩

/-- C1 is violated by the code: after a mismatch the source neither clears
`isPlayerTurn` nor disables input (the game-over only fires 1500ms later),
so further submissions are accepted.  Starting a level-1 game (sequence
[red]) and submitting blue twice leaves `playerSequence` with 2 entries
against a sequence of length 1, refuting
`playerSequence.length <= sequence.length`. -/
theorem claim1_invariant_violated :
    (run (initGame "medium") [⟨0, 1⟩]
        [Ev.start, Ev.presentDone, Ev.submit "blue", Ev.submit "blue"]).map
      (fun p => (p.1.playerSequence.length, p.1.sequence.length,
                 decide (p.1.playerSequence.length ≤ p.1.sequence.length)))
      = some (2, 1, false) := by decide

/-- C2 is violated by the code: playing level 1 correctly (score 60) and
then mismatching at level 2 leaves the running total at 60 with the
game-over scheduled, but a further submission during the 1500ms window is
still accepted, matches position 1, and adds the step and completion
bonuses, so the game ends with final score 180, not the total at the
moment of the ending mismatch. -/
theorem claim2_final_score_diverges :
    (run (initGame "medium") [⟨0, 1⟩, ⟨0, 1⟩]
        [Ev.start, Ev.presentDone, Ev.submit "red", Ev.nextLevelFire,
         Ev.presentDone, Ev.submit "blue"]).map
      (fun p => (p.1.score, p.1.pendingEnd, p.1.isPlaying)) = some (60, 1, true) ∧
    (run (initGame "medium") [⟨0, 1⟩, ⟨0, 1⟩]
        [Ev.start, Ev.presentDone, Ev.submit "red", Ev.nextLevelFire,
         Ev.presentDone, Ev.submit "blue", Ev.submit "red", Ev.endGameFire]).map
      (fun p => (p.1.score, p.1.isPlaying)) = some (180, false) :=
  ⟨by decide, by decide⟩

/-- The easy-branch do-while never returns a color equal to the last
sequence element it was given. -/
theorem easyPick_ne_last (lastColor : Option String) :
    ∀ draws c rest, easyPick lastColor draws = some (c, rest) →
      lastColor ≠ some c := by
  intro draws
  induction draws with
  | nil => intro c rest h; simp [easyPick] at h
  | cons r rs ih =>
    intro c rest h
    simp only [easyPick] at h
    by_cases hEq : lastColor = some (pickColor r)
    · rw [if_pos hEq] at h
      exact ih c rest h
    · rw [if_neg hEq] at h
      simp only [Option.some.injEq, Prod.mk.injEq] at h
      obtain ⟨h1, -⟩ := h
      rw [← h1]
      exact hEq

/-- Appending an element different from the last one preserves the
no-adjacent-repeat chain. -/
theorem chain_push {l : List String} {c : String}
    (hch : List.Chain' (· ≠ ·) l) (hne : l.getLast? ≠ some c) :
    List.Chain' (· ≠ ·) (l ++ [c]) := by
  rw [List.chain'_append]
  refine ⟨hch, List.chain'_singleton c, ?_⟩
  intro x hx y hy
  rw [Option.mem_def] at hx
  rw [Option.mem_def, List.head?_cons, Option.some.injEq] at hy
  subst hy
  intro hxy
  apply hne
  rw [← hxy]
  exact hx

/-- A successful `addToSequence` under easy difficulty appends exactly one
color different from the previous last element and changes nothing else
relevant. -/
theorem addToSequence_easy (g : Game) (draws : List RandDraw)
    (p : Game × List RandDraw)
    (hd : g.difficulty = "easy") (h : addToSequence g draws = some p) :
    ∃ c, p.1.sequence = g.sequence ++ [c] ∧ g.sequence.getLast? ≠ some c ∧
      p.1.difficulty = "easy" := by
  unfold addToSequence chooseColor at h
  rw [hd] at h
  rw [if_pos rfl] at h
  cases hc : easyPick g.sequence.getLast? draws with
  | none => rw [hc] at h; simp at h
  | some q =>
    rw [hc] at h
    simp only [Option.map_some', Option.some.injEq] at h
    rw [← h]
    exact ⟨q.1, rfl, easyPick_ne_last _ draws q.1 q.2 (by rw [hc]), rfl⟩

/-- A successful `nextLevel` under easy difficulty preserves the
no-adjacent-repeat chain and the difficulty. -/
theorem nextLevel_easy_chain (g : Game) (draws : List RandDraw)
    (p : Game × List RandDraw)
    (hd : g.difficulty = "easy") (hch : List.Chain' (· ≠ ·) g.sequence)
    (h : nextLevel g draws = some p) :
    p.1.difficulty = "easy" ∧ List.Chain' (· ≠ ·) p.1.sequence := by
  unfold nextLevel at h
  cases ha : addToSequence { g with playerSequence := [] } draws with
  | none => rw [ha] at h; simp at h
  | some q =>
    rw [ha] at h
    simp only [Option.map_some', Option.some.injEq] at h
    obtain ⟨c, hseq, hlast, hdq⟩ :=
      addToSequence_easy { g with playerSequence := [] } draws q hd ha
    rw [← h]
    refine ⟨hdq, ?_⟩
    show List.Chain' (· ≠ ·) q.1.sequence
    rw [hseq]
    exact chain_push hch hlast

/-- `handleColorClick` never changes `sequence` or `difficulty`. -/
theorem handleColorClick_seq (c : String) (g : Game) :
    (handleColorClick c g).sequence = g.sequence ∧
    (handleColorClick c g).difficulty = g.difficulty := by
  unfold handleColorClick handleCorrectColor handleSequenceComplete
    handleIncorrectColor
  dsimp only
  split
  · exact ⟨rfl, rfl⟩
  · split
    · split
      · exact ⟨rfl, rfl⟩
      · exact ⟨rfl, rfl⟩
    · exact ⟨rfl, rfl⟩

/-- One event step under easy difficulty preserves the difficulty and the
no-adjacent-repeat invariant of the sequence. -/
theorem step_easy_chain (g : Game) (draws : List RandDraw) (e : Ev)
    (p : Game × List RandDraw)
    (hd : g.difficulty = "easy") (hch : List.Chain' (· ≠ ·) g.sequence)
    (hs : step g draws e = some p) :
    p.1.difficulty = "easy" ∧ List.Chain' (· ≠ ·) p.1.sequence := by
  cases e with
  | start =>
    exact nextLevel_easy_chain { resetGame g with isPlaying := true } draws p
      hd List.chain'_nil hs
  | submit c =>
    simp only [step, Option.some.injEq] at hs
    rw [← hs]
    obtain ⟨h1, h2⟩ := handleColorClick_seq c g
    show (handleColorClick c g).difficulty = "easy" ∧
      List.Chain' (· ≠ ·) (handleColorClick c g).sequence
    rw [h1, h2]
    exact ⟨hd, hch⟩
  | replay =>
    simp only [step, Option.some.injEq] at hs
    rw [← hs]
    show (replaySequence g).difficulty = "easy" ∧
      List.Chain' (· ≠ ·) (replaySequence g).sequence
    unfold replaySequence showSequenceStart
    split
    · exact ⟨hd, hch⟩
    · exact ⟨hd, hch⟩
  | togglePause =>
    simp only [step, Option.some.injEq] at hs
    rw [← hs]
    show (togglePause g).difficulty = "easy" ∧
      List.Chain' (· ≠ ·) (togglePause g).sequence
    unfold togglePause
    split
    · exact ⟨hd, hch⟩
    · exact ⟨hd, hch⟩
  | presentDone =>
    simp only [step] at hs
    split at hs
    · exact absurd hs (by simp)
    · simp only [Option.some.injEq] at hs
      rw [← hs]
      split
      · exact ⟨hd, hch⟩
      · exact ⟨hd, hch⟩
  | endGameFire =>
    simp only [step] at hs
    split at hs
    · exact absurd hs (by simp)
    · simp only [Option.some.injEq] at hs
      rw [← hs]
      exact ⟨hd, hch⟩
  | nextLevelFire =>
    simp only [step] at hs
    split at hs
    · exact absurd hs (by simp)
    · exact nextLevel_easy_chain
        { g with pendingNext := g.pendingNext - 1, level := g.level + 1 }
        draws p hd hch hs

/-- Running any event trace under easy difficulty preserves difficulty and
the no-adjacent-repeat invariant. -/
theorem run_easy_chain (evs : List Ev) :
    ∀ (g : Game) (draws : List RandDraw) (p : Game × List RandDraw),
      g.difficulty = "easy" → List.Chain' (· ≠ ·) g.sequence →
      run g draws evs = some p →
      p.1.difficulty = "easy" ∧ List.Chain' (· ≠ ·) p.1.sequence := by
  induction evs with
  | nil =>
    intro g draws p hd hch h
    simp only [run, Option.some.injEq] at h
    rw [← h]
    exact ⟨hd, hch⟩
  | cons e es ih =>
    intro g draws p hd hch h
    simp only [run] at h
    cases hstep : step g draws e with
    | none => rw [hstep] at h; exact absurd h (by simp)
    | some q =>
      rw [hstep] at h
      obtain ⟨hdq, hchq⟩ := step_easy_chain g draws e q hd hch hstep
      exact ih q.1 q.2 p hdq hchq h

/-- C6: under easy difficulty every successful `addToSequence` appends a
color different from the immediately preceding element (any color is
accepted when the sequence is empty), and consequently every state
reachable from a fresh easy-difficulty engine has no two equal adjacent
sequence elements. -/
theorem claim6_easy_no_repeat :
    (∀ g draws p, g.difficulty = "easy" → addToSequence g draws = some p →
      ∃ c, p.1.sequence = g.sequence ++ [c] ∧ g.sequence.getLast? ≠ some c) ∧
    (∀ draws evs p, run (initGame "easy") draws evs = some p →
      List.Chain' (· ≠ ·) p.1.sequence) := by
  constructor
  · intro g draws p hd h
    obtain ⟨c, h1, h2, -⟩ := addToSequence_easy g draws p hd h
    exact ⟨c, h1, h2⟩
  · intro draws evs p h
    exact (run_easy_chain evs (initGame "easy") draws p rfl List.chain'_nil h).2

/-- Witness for C6: with the last element red, the draw red is rejected
and blue is appended; and a concrete one-level easy run satisfies the
adjacent-distinct invariant. -/
theorem claim6_easy_no_repeat_witness :
    (∃ c, ({ turnState ["red"] [] 1 0 with
              difficulty := "easy", sequence := ["red", "blue"] } : Game).sequence =
            ({ turnState ["red"] [] 1 0 with difficulty := "easy" } : Game).sequence ++ [c] ∧
          ({ turnState ["red"] [] 1 0 with difficulty := "easy" } : Game).sequence.getLast?
            ≠ some c) ∧
    List.Chain' (· ≠ ·)
      (({ turnState ["red"] [] 1 0 with difficulty := "easy" } : Game),
        ([] : List RandDraw)).1.sequence :=
  ⟨(claim6_easy_no_repeat.1
      { turnState ["red"] [] 1 0 with difficulty := "easy" } [⟨0, 1⟩, ⟨1, 4⟩]
      ({ turnState ["red"] [] 1 0 with
          difficulty := "easy", sequence := ["red", "blue"] }, [])
      rfl (by decide)),
   (claim6_easy_no_repeat.2 [⟨0, 1⟩]
      [Ev.start, Ev.presentDone]
      ({ turnState ["red"] [] 1 0 with difficulty := "easy" }, []) (by decide))⟩

end MemoryPal
